import Mathlib

/-!
Shallow embedding of `library_management.py`: a book catalog with
add / remove / search / change-status operations and JSON persistence.
Python file I/O is modelled at the JSON-document level: a file is either
absent, present but zero-length, present but not parseable as JSON, or a
parsed JSON value.  Caught exceptions that the Python code turns into
printed messages are modelled as outcome values; exceptions that escape
`load_from_file` (e.g. `KeyError`) are modelled as an `uncaught` outcome
with the in-memory state at the moment the exception propagates.
-/

set_option autoImplicit false

/-- Embeds class `Book`: one catalog entry. Python leaves fields untyped at
runtime; the embedding uses the declared annotation types (`int` ids and
years, `str` text fields). -/
structure Book where
  book_id : Int
  title : String
  author : String
  year : Int
  status : String
deriving DecidableEq, Repr

/-- Embeds class `Library`: the ordered record collection plus the next-id
counter set up by `Library.__init__`. -/
structure Library where
  books : List Book
  next_id : Int
deriving DecidableEq, Repr

/-- Fresh catalog from the `Library` constructor: no books, `next_id = 1`. -/
def emptyLibrary : Library := ⟨[], 1⟩

/-- Embeds `Library.add_book`: append a `Book` carrying the current
`next_id` and the default status `"в наличии"`, then increment `next_id`. -/
def add_book (lib : Library) (title author : String) (year : Int) : Library :=
  { books := lib.books ++ [⟨lib.next_id, title, author, year, "в наличии"⟩],
    next_id := lib.next_id + 1 }

/-- Outcome of `remove_book` / `change_status`: either the operation applied,
or the `ValueError` was raised, caught, and printed (a no-op for the state). -/
inductive OpResult where
  | ok
  | notFound
deriving DecidableEq, Repr

/-- Embeds `Library.remove_book`: if the list is empty or no book carries the
id, raise `ValueError` (caught and printed: `notFound`); otherwise keep
exactly the books whose id differs. -/
def remove_book (lib : Library) (book_id : Int) : Library × OpResult :=
  if lib.books.isEmpty || !(lib.books.any (fun b => b.book_id == book_id)) then
    (lib, OpResult.notFound)
  else
    ({ lib with books := lib.books.filter (fun b => b.book_id != book_id) },
     OpResult.ok)

/-- Tests that `hay` starts with `needle` (character lists). -/
def startsWithL : List Char → List Char → Bool
  | _, [] => true
  | [], _ :: _ => false
  | c :: cs, d :: ds => c == d && startsWithL cs ds

/-- Tests that `needle` occurs contiguously inside `hay` (character lists):
the membership operator of Python on strings. -/
def hasSubstrL (needle : List Char) : List Char → Bool
  | [] => needle.isEmpty
  | c :: t => startsWithL (c :: t) needle || hasSubstrL needle t

/-- Substring test on strings, as the membership operator of Python. -/
def strContains (hay needle : String) : Bool :=
  hasSubstrL needle.toList hay.toList

/-- Embeds `Library.search_books`: keep the books whose title or author
contains the term, or whose year's decimal form equals the term. -/
def search_books (lib : Library) (search_term : String) : List Book :=
  lib.books.filter (fun b =>
    strContains b.title search_term || strContains b.author search_term ||
      search_term == toString b.year)

/-- The loop body of `change_status`: rewrite the status of the first book
carrying the id; `none` when no book does. -/
def setFirstStatus : List Book → Int → String → Option (List Book)
  | [], _, _ => none
  | b :: bs, book_id, new_status =>
    if b.book_id == book_id then some ({ b with status := new_status } :: bs)
    else
      match setFirstStatus bs book_id new_status with
      | some bs' => some (b :: bs')
      | none => none

/-- Embeds `Library.change_status`: overwrite the status of the first book
with the given id and return; otherwise raise `ValueError` (caught and
printed: `notFound`, state untouched). -/
def change_status (lib : Library) (book_id : Int) (new_status : String) :
    Library × OpResult :=
  match setFirstStatus lib.books book_id new_status with
  | some bs => ({ lib with books := bs }, OpResult.ok)
  | none => (lib, OpResult.notFound)

/-- JSON values as Python's `json` module produces them (floats are not
modelled: the program never writes them and no claim reads them). -/
inductive JsonVal where
  | null
  | bool (b : Bool)
  | int (n : Int)
  | str (s : String)
  | arr (xs : List JsonVal)
  | obj (fields : List (String × JsonVal))

/-- Python `dict` lookup over the parsed object's key-value pairs; on
duplicate keys `json.load` keeps the last binding, hence the fold. -/
def jsonLookup (fields : List (String × JsonVal)) (k : String) : Option JsonVal :=
  fields.foldl (fun acc kv => if kv.1 == k then some kv.2 else acc) none

def asInt : JsonVal → Option Int
  | JsonVal.int n => some n
  | _ => none

def asStr : JsonVal → Option String
  | JsonVal.str s => some s
  | _ => none

/-- Embeds `Book.to_dict`: the serialized field mapping, in source order. -/
def to_dict (b : Book) : List (String × JsonVal) :=
  [("book_id", JsonVal.int b.book_id),
   ("title", JsonVal.str b.title),
   ("author", JsonVal.str b.author),
   ("year", JsonVal.int b.year),
   ("status", JsonVal.str b.status)]

/-- The catalog file as `load_from_file` distinguishes it: absent
(`FileNotFoundError`), present but zero-length (the `st_size == 0` check),
present but not valid JSON (`json.JSONDecodeError`), or a parsed JSON value. -/
inductive FileContent where
  | absent
  | emptyFile
  | invalidJson
  | jsonVal (v : JsonVal)

/-- Embeds `Library.save_to_file`: write the books' `to_dict` forms as a JSON
array.  The written text is never zero-length (an empty catalog writes `[]`),
so the result is always a parsed-JSON file content. -/
def save_to_file (lib : Library) : FileContent :=
  FileContent.jsonVal (JsonVal.arr (lib.books.map (fun b => JsonVal.obj (to_dict b))))

/-- Exceptions that escape `load_from_file` uncaught. -/
inductive PyError where
  | keyError (key : String)
  | typeError
deriving DecidableEq, Repr

/-- Embeds the element conversion `Book(book_id=..., title=..., ...)` inside
the list comprehension of `load_from_file`: the four required keys are
looked up in the evaluation order of the keyword arguments, the first
absent one raising `KeyError`; subscripting a non-dict element raises
`TypeError`; an absent "status" key falls back to the default via
`data.get`.  Python stores whatever values the keys hold; the typed
embedding additionally rejects values outside the declared field types as a
`TypeError` (the save format of the program never produces such values, and
no claim exercises them). -/
def decodeBook : JsonVal → Except PyError Book
  | JsonVal.obj fields =>
    match jsonLookup fields "book_id" with
    | none => Except.error (PyError.keyError "book_id")
    | some idv =>
      match jsonLookup fields "title" with
      | none => Except.error (PyError.keyError "title")
      | some tv =>
        match jsonLookup fields "author" with
        | none => Except.error (PyError.keyError "author")
        | some av =>
          match jsonLookup fields "year" with
          | none => Except.error (PyError.keyError "year")
          | some yv =>
            match asInt idv, asStr tv, asStr av, asInt yv,
                asStr ((jsonLookup fields "status").getD (JsonVal.str "в наличии")) with
            | some i, some t, some a, some y, some st =>
              Except.ok ⟨i, t, a, y, st⟩
            | _, _, _, _, _ => Except.error PyError.typeError
  | _ => Except.error PyError.typeError

/-- The list comprehension over the parsed elements: left to right, the first
raising element aborts the whole comprehension before `self.books` is
assigned. -/
def decodeBooks : List JsonVal → Except PyError (List Book)
  | [] => Except.ok []
  | v :: vs =>
    match decodeBook v with
    | Except.error e => Except.error e
    | Except.ok b =>
      match decodeBooks vs with
      | Except.error e => Except.error e
      | Except.ok bs => Except.ok (b :: bs)

/-- Python iteration `for data in json.load(f)`: arrays yield their elements,
dicts their keys, strings their characters; other values raise `TypeError`. -/
def pyIter : JsonVal → Option (List JsonVal)
  | JsonVal.arr xs => some xs
  | JsonVal.obj fields => some (fields.map (fun kv => JsonVal.str kv.1))
  | JsonVal.str s => some (s.toList.map (fun c => JsonVal.str (String.singleton c)))
  | _ => none

/-- Embeds `max(book.book_id for book in self.books)`, only evaluated on a
nonempty list. -/
def maxId : List Book → Int
  | [] => 1
  | b :: bs => bs.foldl (fun m b' => max m b'.book_id) b.book_id

/-- How a `load_from_file` call ends: normally after replacing the state,
with one of the three printed messages (file absent, zero-length file,
JSON format error), or by an uncaught exception. -/
inductive LoadOutcome where
  | ok
  | fileNotFoundMsg
  | emptyLibMsg
  | formatErrorMsg
  | uncaught (e : PyError)
deriving DecidableEq, Repr

/-- Embeds `Library.load_from_file`: absent file — `FileNotFoundError`
caught, state untouched; zero-length file — message printed, state untouched;
unparseable file — `json.JSONDecodeError` caught, state untouched; otherwise
iterate the parsed value, convert every element, replace `self.books`
wholesale and recompute `next_id` as `max(ids) + 1`, or `1` when empty.  A
`KeyError`/`TypeError` during conversion escapes uncaught with the state
still untouched (the comprehension fails before the assignment). -/
def load_from_file (lib : Library) (file : FileContent) : Library × LoadOutcome :=
  match file with
  | FileContent.absent => (lib, LoadOutcome.fileNotFoundMsg)
  | FileContent.emptyFile => (lib, LoadOutcome.emptyLibMsg)
  | FileContent.invalidJson => (lib, LoadOutcome.formatErrorMsg)
  | FileContent.jsonVal v =>
    match pyIter v with
    | none => (lib, LoadOutcome.uncaught PyError.typeError)
    | some items =>
      match decodeBooks items with
      | Except.error e => (lib, LoadOutcome.uncaught e)
      | Except.ok bs =>
        ({ books := bs, next_id := if bs.isEmpty then 1 else maxId bs + 1 },
         LoadOutcome.ok)

/-- A catalog-mutating call in an interleaved `add`/`remove` call sequence. -/
inductive Op where
  | add (title author : String) (year : Int)
  | remove (book_id : Int)
deriving DecidableEq, Repr

/-- Run one call against the catalog (outcomes of `remove` are printed, not
returned, so only the state matters here). -/
def applyOp (lib : Library) : Op → Library
  | Op.add t a y => add_book lib t a y
  | Op.remove i => (remove_book lib i).1

/-- The ids handed out by the `add` calls of a call sequence, in assignment
order. -/
def assignedIds (lib : Library) : List Op → List Int
  | [] => []
  | Op.add t a y :: ops => lib.next_id :: assignedIds (add_book lib t a y) ops
  | Op.remove i :: ops => assignedIds (remove_book lib i).1 ops

/-- The specification's wording of "substring": `needle` occurs contiguously
in `hay`. -/
def IsSubstringOf (needle hay : String) : Prop :=
  ∃ s t, hay.toList = s ++ needle.toList ++ t

/-- A small populated catalog with distinct ids, as obtained from two `add`
calls, used to instantiate the conditional theorems. -/
def sampleLibrary : Library :=
  ⟨[⟨1, "A", "X", 2000, "в наличии"⟩, ⟨2, "B", "Y", 2001, "в наличии"⟩], 3⟩

/-- A parsed catalog file whose two objects carry the same `book_id`. -/
def dupIdFile : FileContent :=
  FileContent.jsonVal (JsonVal.arr
    [JsonVal.obj (to_dict ⟨1, "A", "X", 2000, "в наличии"⟩),
     JsonVal.obj (to_dict ⟨1, "B", "Y", 2001, "в наличии"⟩)])

/-- A catalog file holding one object that lacks the required "book_id" key. -/
def missingKeyFields : List (String × JsonVal) :=
  [("title", JsonVal.str "T"), ("author", JsonVal.str "A"),
   ("year", JsonVal.int 2000)]

theorem remove_book_next_id (lib : Library) (book_id : Int) :
    ((remove_book lib book_id).1).next_id = lib.next_id := by
  unfold remove_book
  split <;> rfl

theorem startsWithL_eq_true (hay needle : List Char) :
    startsWithL hay needle = true ↔ ∃ t, hay = needle ++ t := by
  induction needle generalizing hay with
  | nil =>
    cases hay <;> simp [startsWithL]
  | cons d ds ih =>
    cases hay with
    | nil => simp [startsWithL]
    | cons c cs =>
      simp only [startsWithL, Bool.and_eq_true, beq_iff_eq, ih, List.cons_append,
        List.cons.injEq]
      constructor
      · rintro ⟨rfl, t, rfl⟩
        exact ⟨t, rfl, rfl⟩
      · rintro ⟨t, rfl, rfl⟩
        exact ⟨rfl, t, rfl⟩

theorem hasSubstrL_eq_true (needle hay : List Char) :
    hasSubstrL needle hay = true ↔ ∃ s t, hay = s ++ needle ++ t := by
  induction hay with
  | nil =>
    simp only [hasSubstrL, List.isEmpty_iff]
    constructor
    · rintro rfl
      exact ⟨[], [], rfl⟩
    · rintro ⟨s, t, h⟩
      rcases List.append_eq_nil.mp h.symm with ⟨h1, h2⟩
      rcases List.append_eq_nil.mp h1 with ⟨-, h3⟩
      exact h3
  | cons c rest ih =>
    simp only [hasSubstrL, Bool.or_eq_true, startsWithL_eq_true, ih]
    constructor
    · rintro (⟨t, h⟩ | ⟨s, t, h⟩)
      · exact ⟨[], t, by simpa using h⟩
      · exact ⟨c :: s, t, by simp [h]⟩
    · rintro ⟨s, t, h⟩
      cases s with
      | nil => exact Or.inl ⟨t, by simpa using h⟩
      | cons a s' =>
        rcases List.cons.injEq .. ▸ h with ⟨rfl, h2⟩
        exact Or.inr ⟨s', t, h2⟩

theorem strContains_iff_isSubstring (hay needle : String) :
    strContains hay needle = true ↔ IsSubstringOf needle hay := by
  exact hasSubstrL_eq_true needle.toList hay.toList

theorem strContains_empty_term (hay : String) : strContains hay "" = true := by
  have h : ("" : String).toList = [] := rfl
  unfold strContains
  rw [h]
  cases hay.toList <;> simp [hasSubstrL, startsWithL]

/-- C3: loading a file whose contents are not valid JSON reports the format
error (the caught `json.JSONDecodeError` message) and leaves the books and
`next_id` of any catalog exactly as they were, propagating nothing. -/
theorem load_invalid_json_preserves_state (lib : Library) :
    load_from_file lib FileContent.invalidJson = (lib, LoadOutcome.formatErrorMsg) := rfl

/-- C4 (counterexample): on a populated catalog, loading an absent file does
not leave the catalog empty with `next_id = 1` — the caught
`FileNotFoundError` leaves the prior books in place. -/
theorem load_absent_counterexample :
    ¬ ((load_from_file (add_book emptyLibrary "A" "X" 2000) FileContent.absent).1.books = []
        ∧ (load_from_file (add_book emptyLibrary "A" "X" 2000)
            FileContent.absent).1.next_id = 1) := by
  decide

/-- C4 (amended): loading an absent or zero-length file leaves the books and
`next_id` of the catalog unchanged — in particular a fresh catalog stays
empty with `next_id = 1` — reports the informational message, and raises no
error that halts the program. -/
theorem load_absent_or_empty_preserves_state (lib : Library) :
    load_from_file lib FileContent.absent = (lib, LoadOutcome.fileNotFoundMsg) ∧
    load_from_file lib FileContent.emptyFile = (lib, LoadOutcome.emptyLibMsg) ∧
    (load_from_file emptyLibrary FileContent.absent).1.books = [] ∧
    (load_from_file emptyLibrary FileContent.absent).1.next_id = 1 ∧
    (load_from_file emptyLibrary FileContent.emptyFile).1.books = [] ∧
    (load_from_file emptyLibrary FileContent.emptyFile).1.next_id = 1 :=
  ⟨rfl, rfl, rfl, rfl, rfl, rfl⟩

/-- C5: `search_books` returns exactly the records whose title or author has
the term as a substring, or whose year in decimal form equals the term —
case-sensitively — keeping the insertion order of the catalog (the result is
a sublist of `books`), and the empty term matches every record. -/
theorem search_books_spec (lib : Library) (term : String) :
    (search_books lib term).Sublist lib.books ∧
    (∀ b, b ∈ search_books lib term ↔
        b ∈ lib.books ∧
          (IsSubstringOf term b.title ∨ IsSubstringOf term b.author ∨
            term = toString b.year)) ∧
    search_books lib "" = lib.books := by
  refine ⟨List.filter_sublist lib.books, fun b => ?_, ?_⟩
  · rw [search_books, List.mem_filter]
    constructor
    · rintro ⟨hmem, hp⟩
      refine ⟨hmem, ?_⟩
      simp only [Bool.or_eq_true] at hp
      rcases hp with (hp | hp) | hp
      · exact Or.inl ((strContains_iff_isSubstring _ _).mp hp)
      · exact Or.inr (Or.inl ((strContains_iff_isSubstring _ _).mp hp))
      · exact Or.inr (Or.inr (by simpa using hp))
    · rintro ⟨hmem, hp | hp | hp⟩
      · exact ⟨hmem, by
          simp [Bool.or_eq_true, (strContains_iff_isSubstring _ _).mpr hp]⟩
      · exact ⟨hmem, by
          simp [Bool.or_eq_true, (strContains_iff_isSubstring _ _).mpr hp]⟩
      · exact ⟨hmem, by simp [hp]⟩
  · rw [search_books]
    exact List.filter_eq_self.mpr (fun a _ => by simp [strContains_empty_term])

theorem decodeBook_to_dict (b : Book) :
    decodeBook (JsonVal.obj (to_dict b)) = Except.ok b := rfl

theorem decodeBooks_map_to_dict (bs : List Book) :
    decodeBooks (bs.map (fun b => JsonVal.obj (to_dict b))) = Except.ok bs := by
  induction bs with
  | nil => rfl
  | cons b bs ih => simp [decodeBooks, decodeBook_to_dict, ih]

/-- C1: saving any catalog and loading the file into a fresh catalog
reproduces the same books — same ids, titles, authors, years, statuses, in
the same order — and sets `next_id` to the maximum id plus one, or to `1`
when the record sequence is empty. -/
theorem save_load_roundtrip (lib : Library) :
    load_from_file emptyLibrary (save_to_file lib)
      = ({ books := lib.books,
           next_id := if lib.books.isEmpty then 1 else maxId lib.books + 1 },
         LoadOutcome.ok) := by
  simp [load_from_file, save_to_file, pyIter, decodeBooks_map_to_dict]

theorem assignedIds_mono (ops : List Op) : ∀ lib : Library,
    (assignedIds lib ops).Pairwise (· < ·) ∧
      ∀ x ∈ assignedIds lib ops, lib.next_id ≤ x := by
  induction ops with
  | nil => intro lib; simp [assignedIds]
  | cons op ops ih =>
    intro lib
    cases op with
    | add t a y =>
      obtain ⟨h1, h2⟩ := ih (add_book lib t a y)
      have hnext : (add_book lib t a y).next_id = lib.next_id + 1 := rfl
      rw [hnext] at h2
      simp only [assignedIds, List.pairwise_cons, List.mem_cons]
      refine ⟨⟨fun x hx => ?_, h1⟩, fun x hx => ?_⟩
      · have hb := h2 x hx
        omega
      · rcases hx with rfl | hx
        · exact le_refl _
        · have hb := h2 x hx
          omega
    | remove i =>
      obtain ⟨h1, h2⟩ := ih (remove_book lib i).1
      rw [remove_book_next_id] at h2
      exact ⟨h1, h2⟩

/-- C2: over any sequence of `add` calls interleaved with `remove` calls on a
fresh catalog, the assigned ids are pairwise distinct and strictly increasing
in assignment order, and no `remove` call changes `next_id`. -/
theorem add_ids_unique_increasing (ops : List Op) :
    (assignedIds emptyLibrary ops).Pairwise (· ≠ ·) ∧
    (assignedIds emptyLibrary ops).Pairwise (· < ·) ∧
    ∀ (lib : Library) (book_id : Int),
      ((remove_book lib book_id).1).next_id = lib.next_id := by
  obtain ⟨h1, -⟩ := assignedIds_mono ops emptyLibrary
  exact ⟨h1.imp (fun h => ne_of_lt h), h1, remove_book_next_id⟩

theorem remove_book_not_found (lib : Library) (book_id : Int)
    (h : ∀ b ∈ lib.books, b.book_id ≠ book_id) :
    remove_book lib book_id = (lib, OpResult.notFound) := by
  have hany : lib.books.any (fun b => b.book_id == book_id) = false :=
    List.any_eq_false.mpr (fun b hb => by simpa using h b hb)
  simp [remove_book, hany]

theorem remove_book_found (lib : Library) (book_id : Int)
    (h : ∃ b ∈ lib.books, b.book_id = book_id) :
    remove_book lib book_id
      = ({ books := lib.books.filter (fun b => b.book_id != book_id),
           next_id := lib.next_id }, OpResult.ok) := by
  obtain ⟨b, hb, hid⟩ := h
  have hany : lib.books.any (fun b => b.book_id == book_id) = true :=
    List.any_eq_true.mpr ⟨b, hb, by simpa using hid⟩
  have hne : lib.books.isEmpty = false :=
    List.isEmpty_eq_false.mpr (fun hnil => by rw [hnil] at hb; exact absurd hb (by simp))
  simp [remove_book, hany, hne]

theorem filter_ne_eq_eraseP (l : List Book) (book_id : Int)
    (hdist : l.Pairwise (fun a b => a.book_id ≠ b.book_id)) :
    l.filter (fun b => b.book_id != book_id)
      = l.eraseP (fun b => b.book_id == book_id) := by
  induction l with
  | nil => rfl
  | cons b bs ih =>
    rw [List.pairwise_cons] at hdist
    obtain ⟨hb, hbs⟩ := hdist
    by_cases h : b.book_id = book_id
    · have hall : ∀ x ∈ bs, (x.book_id != book_id) = true := by
        intro x hx
        have hne := hb x hx
        rw [bne_iff_ne]
        rw [h] at hne
        exact fun hc => hne (hc ▸ rfl)
      rw [List.filter_cons, List.eraseP_cons]
      simp [h, List.filter_eq_self.mpr hall]
    · have hbeq : (b.book_id == book_id) = false := by simp [h]
      rw [List.filter_cons, List.eraseP_cons]
      simp [hbeq, h, ih hbs]

theorem remove_book_no_match_after (lib : Library) (book_id : Int) :
    ∀ b ∈ (remove_book lib book_id).1.books, b.book_id ≠ book_id := by
  intro b hb
  unfold remove_book at hb
  split at hb
  · rename_i hc
    rw [Bool.or_eq_true] at hc
    rcases hc with hc | hc
    · rw [List.isEmpty_iff.mp hc] at hb
      exact absurd hb (by simp)
    · have hany : lib.books.any (fun b => b.book_id == book_id) = false := by
        cases hval : lib.books.any (fun b => b.book_id == book_id)
        · rfl
        · rw [hval] at hc; exact absurd hc (by simp)
      have := List.any_eq_false.mp hany b hb
      simpa using this
  · rw [List.mem_filter] at hb
    have := hb.2
    simpa using this

/-- C6: on a catalog with pairwise-distinct ids, `remove_book` of a present
id removes exactly the matching record (an `eraseP` of the single match),
keeps the relative order of the rest and `next_id` unchanged; of an absent
id it reports not-found and is a no-op; and removing the same id twice
reports not-found the second time with the state unchanged. -/
theorem remove_book_spec (lib : Library) (book_id : Int)
    (hdist : lib.books.Pairwise (fun a b => a.book_id ≠ b.book_id)) :
    ((∃ b ∈ lib.books, b.book_id = book_id) →
        remove_book lib book_id
          = ({ books := lib.books.eraseP (fun b => b.book_id == book_id),
               next_id := lib.next_id }, OpResult.ok)) ∧
    ((∀ b ∈ lib.books, b.book_id ≠ book_id) →
        remove_book lib book_id = (lib, OpResult.notFound)) ∧
    remove_book (remove_book lib book_id).1 book_id
      = ((remove_book lib book_id).1, OpResult.notFound) := by
  refine ⟨fun h => ?_, remove_book_not_found lib book_id, ?_⟩
  · rw [remove_book_found lib book_id h, filter_ne_eq_eraseP lib.books book_id hdist]
  · exact remove_book_not_found _ _ (remove_book_no_match_after lib book_id)

/-- Witness for C6 at a concrete two-book catalog and id 1. -/
theorem remove_book_spec_witness :
    (sampleLibrary.books.Pairwise (fun a b => a.book_id ≠ b.book_id)) ∧
    (((∃ b ∈ sampleLibrary.books, b.book_id = 1) →
        remove_book sampleLibrary 1
          = ({ books := sampleLibrary.books.eraseP (fun b => b.book_id == 1),
               next_id := sampleLibrary.next_id }, OpResult.ok)) ∧
    ((∀ b ∈ sampleLibrary.books, b.book_id ≠ 1) →
        remove_book sampleLibrary 1 = (sampleLibrary, OpResult.notFound)) ∧
    remove_book (remove_book sampleLibrary 1).1 1
      = ((remove_book sampleLibrary 1).1, OpResult.notFound)) :=
  ⟨by decide, remove_book_spec sampleLibrary 1 (by decide)⟩

theorem setFirstStatus_found :
    ∀ (l : List Book) (book_id : Int) (new_status : String),
      (∃ b ∈ l, b.book_id = book_id) →
      ∃ l₁ b l₂, l = l₁ ++ b :: l₂ ∧ b.book_id = book_id ∧
        (∀ x ∈ l₁, x.book_id ≠ book_id) ∧
        setFirstStatus l book_id new_status
          = some (l₁ ++ { b with status := new_status } :: l₂) := by
  intro l
  induction l with
  | nil => rintro book_id new_status ⟨b, hb, -⟩; exact absurd hb (by simp)
  | cons b bs ih =>
    intro book_id new_status h
    by_cases hb : b.book_id = book_id
    · refine ⟨[], b, bs, rfl, hb, by simp, ?_⟩
      simp [setFirstStatus, hb]
    · obtain ⟨x, hx, hxid⟩ := h
      rcases List.mem_cons.mp hx with rfl | hx
      · exact absurd hxid hb
      · obtain ⟨l₁, c, l₂, hdec, hcid, hl₁, hset⟩ :=
          ih book_id new_status ⟨x, hx, hxid⟩
        refine ⟨b :: l₁, c, l₂, by simp [hdec], hcid, ?_, ?_⟩
        · intro y hy
          rcases List.mem_cons.mp hy with rfl | hy
          · exact hb
          · exact hl₁ y hy
        · have hbeq : (b.book_id == book_id) = false := by simp [hb]
          simp [setFirstStatus, hbeq, hset]

/-- C7: when a record with the id exists, `change_status` overwrites the
status of the first matching record only — its other fields, every other
record, the order of the sequence, and `next_id` are untouched — and the
operation reports success. -/
theorem change_status_spec (lib : Library) (book_id : Int) (new_status : String)
    (h : ∃ b ∈ lib.books, b.book_id = book_id) :
    ∃ l₁ b l₂,
      lib.books = l₁ ++ b :: l₂ ∧ b.book_id = book_id ∧
      (∀ x ∈ l₁, x.book_id ≠ book_id) ∧
      change_status lib book_id new_status
        = ({ books := l₁ ++ { b with status := new_status } :: l₂,
             next_id := lib.next_id }, OpResult.ok) := by
  obtain ⟨l₁, b, l₂, hdec, hbid, hl₁, hset⟩ :=
    setFirstStatus_found lib.books book_id new_status h
  exact ⟨l₁, b, l₂, hdec, hbid, hl₁, by simp [change_status, hset]⟩

/-- Witness for C7 at a concrete two-book catalog, id 2, status "issued". -/
theorem change_status_spec_witness :
    (∃ b ∈ sampleLibrary.books, b.book_id = 2) ∧
    ∃ l₁ b l₂,
      sampleLibrary.books = l₁ ++ b :: l₂ ∧ b.book_id = 2 ∧
      (∀ x ∈ l₁, x.book_id ≠ 2) ∧
      change_status sampleLibrary 2 "issued"
        = ({ books := l₁ ++ { b with status := "issued" } :: l₂,
             next_id := sampleLibrary.next_id }, OpResult.ok) :=
  ⟨by decide, change_status_spec sampleLibrary 2 "issued" (by decide)⟩

/-- C8: the end-to-end scenario — two adds get ids 1 and 2, removing id 1
leaves only book 2, searching "B" finds exactly book 2, changing the status
of book 2 to "issued" updates it in place, and saving then loading into a
fresh catalog yields exactly one record with id 2, status "issued", and
`next_id = 3`. -/
theorem end_to_end_scenario :
    add_book emptyLibrary "A" "X" 2000
      = ⟨[⟨1, "A", "X", 2000, "в наличии"⟩], 2⟩ ∧
    add_book ⟨[⟨1, "A", "X", 2000, "в наличии"⟩], 2⟩ "B" "Y" 2001
      = ⟨[⟨1, "A", "X", 2000, "в наличии"⟩, ⟨2, "B", "Y", 2001, "в наличии"⟩], 3⟩ ∧
    remove_book ⟨[⟨1, "A", "X", 2000, "в наличии"⟩, ⟨2, "B", "Y", 2001, "в наличии"⟩], 3⟩ 1
      = (⟨[⟨2, "B", "Y", 2001, "в наличии"⟩], 3⟩, OpResult.ok) ∧
    search_books ⟨[⟨2, "B", "Y", 2001, "в наличии"⟩], 3⟩ "B"
      = [⟨2, "B", "Y", 2001, "в наличии"⟩] ∧
    change_status ⟨[⟨2, "B", "Y", 2001, "в наличии"⟩], 3⟩ 2 "issued"
      = (⟨[⟨2, "B", "Y", 2001, "issued"⟩], 3⟩, OpResult.ok) ∧
    load_from_file emptyLibrary (save_to_file ⟨[⟨2, "B", "Y", 2001, "issued"⟩], 3⟩)
      = (⟨[⟨2, "B", "Y", 2001, "issued"⟩], 3⟩, LoadOutcome.ok) := by
  decide

theorem decodeBook_missing_key (fields : List (String × JsonVal))
    (hmiss : jsonLookup fields "book_id" = none ∨ jsonLookup fields "title" = none ∨
      jsonLookup fields "author" = none ∨ jsonLookup fields "year" = none) :
    ∃ k, decodeBook (JsonVal.obj fields) = Except.error (PyError.keyError k) := by
  cases hbi : jsonLookup fields "book_id" with
  | none => exact ⟨"book_id", by simp [decodeBook, hbi]⟩
  | some idv =>
    cases hti : jsonLookup fields "title" with
    | none => exact ⟨"title", by simp [decodeBook, hbi, hti]⟩
    | some tv =>
      cases hau : jsonLookup fields "author" with
      | none => exact ⟨"author", by simp [decodeBook, hbi, hti, hau]⟩
      | some av =>
        cases hye : jsonLookup fields "year" with
        | none => exact ⟨"year", by simp [decodeBook, hbi, hti, hau, hye]⟩
        | some yv =>
          rcases hmiss with h | h | h | h <;> simp_all

theorem decodeBooks_append_error (pre : List JsonVal) (bs : List Book)
    (v : JsonVal) (post : List JsonVal) (e : PyError)
    (hpre : decodeBooks pre = Except.ok bs) (hv : decodeBook v = Except.error e) :
    decodeBooks (pre ++ v :: post) = Except.error e := by
  induction pre generalizing bs with
  | nil => simp [decodeBooks, hv]
  | cons p pre ih =>
    rw [List.cons_append]
    simp only [decodeBooks] at hpre ⊢
    cases hp : decodeBook p with
    | error e' => simp [hp] at hpre
    | ok b =>
      simp only [hp] at hpre ⊢
      cases hrest : decodeBooks pre with
      | error e' => simp [hrest] at hpre
      | ok bs' => simp [ih bs' hrest]

/-- C9: loading a valid JSON array in which, after some decodable elements,
an object lacks one of the required keys, ends in an uncaught `KeyError`
while the books and `next_id` of the catalog stay exactly as they were. -/
theorem load_missing_key_uncaught (lib : Library) (pre : List JsonVal)
    (fields : List (String × JsonVal)) (post : List JsonVal) (bs : List Book)
    (hpre : decodeBooks pre = Except.ok bs)
    (hmiss : jsonLookup fields "book_id" = none ∨ jsonLookup fields "title" = none ∨
      jsonLookup fields "author" = none ∨ jsonLookup fields "year" = none) :
    ∃ k, load_from_file lib
        (FileContent.jsonVal (JsonVal.arr (pre ++ JsonVal.obj fields :: post)))
      = (lib, LoadOutcome.uncaught (PyError.keyError k)) := by
  obtain ⟨k, hk⟩ := decodeBook_missing_key fields hmiss
  refine ⟨k, ?_⟩
  have hall := decodeBooks_append_error pre bs (JsonVal.obj fields) post
    (PyError.keyError k) hpre hk
  simp [load_from_file, pyIter, hall]

/-- Witness for C9: one object carrying title, author and year but no
"book_id" key. -/
theorem load_missing_key_uncaught_witness :
    decodeBooks ([] : List JsonVal) = Except.ok ([] : List Book) ∧
    (jsonLookup missingKeyFields "book_id" = none ∨
      jsonLookup missingKeyFields "title" = none ∨
      jsonLookup missingKeyFields "author" = none ∨
      jsonLookup missingKeyFields "year" = none) ∧
    ∃ k, load_from_file sampleLibrary
        (FileContent.jsonVal (JsonVal.arr ([] ++ JsonVal.obj missingKeyFields :: [])))
      = (sampleLibrary, LoadOutcome.uncaught (PyError.keyError k)) :=
  ⟨rfl, Or.inl rfl,
    load_missing_key_uncaught sampleLibrary [] missingKeyFields [] [] rfl (Or.inl rfl)⟩

/-- C10: `remove_book` deletes every record whose id matches, not at most
one — after any `remove_book` call no record with the removed id remains —
and `load_from_file` performs no id-uniqueness check: loading an array with
two objects sharing `book_id = 1` succeeds with both records, and a single
remove of id 1 deletes both. -/
theorem remove_book_deletes_all_matches :
    (∀ (lib : Library) (book_id : Int),
        ((remove_book lib book_id).1.books.all (fun b => b.book_id != book_id))
          = true) ∧
    load_from_file emptyLibrary dupIdFile
      = (⟨[⟨1, "A", "X", 2000, "в наличии"⟩, ⟨1, "B", "Y", 2001, "в наличии"⟩], 2⟩,
         LoadOutcome.ok) ∧
    remove_book ⟨[⟨1, "A", "X", 2000, "в наличии"⟩, ⟨1, "B", "Y", 2001, "в наличии"⟩], 2⟩ 1
      = (⟨[], 2⟩, OpResult.ok) := by
  refine ⟨fun lib book_id => ?_, by decide, by decide⟩
  rw [List.all_eq_true]
  intro b hb
  have := remove_book_no_match_after lib book_id b hb
  simpa using this
